import Mathlib

/-!
Verification of the NotiSync notification classifier
(`services/ml/classifier.py`).

Strings are modelled as `List Char` (`Str`); Python's `str.lower`, `str.upper`
and `str.strip` are modelled character-wise over ASCII.  Python `dict`s keyed
by strings are modelled as association lists with Python's update semantics
(updating an existing key keeps its position, inserting a new key appends),
which preserves Python's insertion-ordered iteration.  Scores and confidences
are exact rationals (`ℚ`); the Python program only ever manipulates decimal
literals, so this is faithful.

The seven junk regexes are simple enough that greedy matching without
backtracking coincides with Python `re.search` semantics (every repetition in
them is followed by a literal that cannot extend the repeated class), so the
tiny matcher below is an exact model on those patterns.
-/

namespace NotiSync

abbrev Str := List Char

/-- Model of Python `str.lower` on a single character (ASCII). -/
def lowerChar (c : Char) : Char :=
  if 65 ≤ c.toNat ∧ c.toNat ≤ 90 then Char.ofNat (c.toNat + 32) else c

/-- Model of Python `str.upper` on a single character (ASCII). -/
def upperChar (c : Char) : Char :=
  if 97 ≤ c.toNat ∧ c.toNat ≤ 122 then Char.ofNat (c.toNat - 32) else c

/-- Model of Python `str.lower`. -/
def lowerS (s : Str) : Str := s.map lowerChar

/-- Model of Python `str.upper`. -/
def upperS (s : Str) : Str := s.map upperChar

/-- Model of Python `str.strip`: remove leading and trailing whitespace. -/
def strip (s : Str) : Str :=
  ((s.dropWhile Char.isWhitespace).reverse.dropWhile Char.isWhitespace).reverse

/-- Model of Python's substring test `needle in hay`. -/
def isSubstr (needle : Str) : Str → Bool
  | [] => needle.isEmpty
  | c :: cs => List.isPrefixOf needle (c :: cs) || isSubstr needle cs

/-- A Python regex `\w` word character (ASCII fragment). -/
def isWordChar (c : Char) : Bool := c.isAlphanum || c == '_'

/-- Accumulator-based extraction of the maximal runs of word characters. -/
def wordRunsAux : Str → Str → List Str
  | [], acc => if acc.isEmpty then [] else [acc.reverse]
  | c :: cs, acc =>
    if isWordChar c then wordRunsAux cs (c :: acc)
    else if acc.isEmpty then wordRunsAux cs []
    else acc.reverse :: wordRunsAux cs []

/-- The maximal runs of word characters in a string, in order.
`re.findall` of `\b\w{3,}\b` returns exactly the maximal word-character
runs of length ≥ 3 of `s`, i.e. `(wordRuns s).filter (3 ≤ ·.length)`. -/
def wordRuns (s : Str) : List Str := wordRunsAux s []

/-- Atoms of the junk regexes: a literal character, `\d+`, `\s+`, `\s*`
and `\d{2}`. -/
inductive RAtom
  | lit (c : Char)
  | digits
  | ws1
  | ws0
  | digit2
deriving DecidableEq

/-- Greedy matching of a sequence of atoms at the head of a string.
On the seven junk patterns greedy matching agrees with Python `re`. -/
def matchAtoms : List RAtom → Str → Bool
  | [], _ => true
  | .lit c :: ps, d :: ds => d == c && matchAtoms ps ds
  | .lit _ :: _, [] => false
  | .digits :: ps, ds =>
    !(ds.takeWhile Char.isDigit).isEmpty && matchAtoms ps (ds.dropWhile Char.isDigit)
  | .ws1 :: ps, ds =>
    !(ds.takeWhile Char.isWhitespace).isEmpty
      && matchAtoms ps (ds.dropWhile Char.isWhitespace)
  | .ws0 :: ps, ds => matchAtoms ps (ds.dropWhile Char.isWhitespace)
  | .digit2 :: ps, ds =>
    match ds with
    | a :: b :: rest => a.isDigit && b.isDigit && matchAtoms ps rest
    | _ => false

/-- Model of Python `re.search`: try to match at every starting position. -/
def reFind (p : List RAtom) : Str → Bool
  | [] => matchAtoms p []
  | c :: cs => matchAtoms p (c :: cs) || reFind p cs

/-- Literal atoms for a string. -/
def lits (s : Str) : List RAtom := s.map RAtom.lit

/-- The three notification categories (`NotificationCategory` enum). -/
inductive NotificationCategory
  | work
  | personal
  | junk
deriving DecidableEq

/-- The enum value string `NotificationCategory.value`. -/
def catValue : NotificationCategory → Str
  | .work => "Work".data
  | .personal => "Personal".data
  | .junk => "Junk".data

/-- The `ClassificationResult` dataclass. -/
structure ClassificationResult where
  category : NotificationCategory
  confidence : ℚ
  reasoning : Str
  matched_keywords : List Str
deriving DecidableEq

/-- The `UserFeedback` dataclass (timestamp modelled as a natural number). -/
structure UserFeedback where
  app_name : Str
  title : Str
  body : Str
  predicted_category : NotificationCategory
  actual_category : NotificationCategory
  timestamp : Nat

/-- One category's keyword table (`_initialize_keywords` entries).  Absent
keys (`patterns`, `domains`) default to `[]`, as `keywords.get(k, [])` does.
Each regex is paired with its source text, used for the `pattern:` tag. -/
structure KeywordSet where
  apps : List Str := []
  content : List Str := []
  patterns : List (Str × List RAtom) := []
  domains : List Str := []

/-- Convert a list of string literals. -/
def strs (l : List String) : List Str := l.map String.data

/-- The table `self.work_keywords`. -/
def work_keywords : KeywordSet where
  apps := strs
    ["slack", "teams", "microsoft teams", "outlook", "gmail", "email",
     "zoom", "webex", "skype", "calendar", "jira", "confluence",
     "trello", "asana", "notion", "monday", "salesforce", "hubspot",
     "office", "excel", "word", "powerpoint", "sharepoint",
     "linkedin", "workday", "bamboohr", "zendesk", "freshdesk"]
  content := strs
    ["meeting", "conference", "deadline", "project", "task",
     "client", "customer", "report", "presentation", "document",
     "schedule", "appointment", "colleague", "team", "manager",
     "office", "work", "business", "professional", "corporate",
     "invoice", "contract", "proposal", "budget", "quarterly",
     "standup", "scrum", "sprint", "deployment", "release",
     "urgent", "asap", "priority", "escalation", "incident"]
  domains := strs
    ["company.com", "corp.com", "enterprise.com", "business.com",
     "work.com", "office.com", "team.com"]

/-- The table `self.personal_keywords`. -/
def personal_keywords : KeywordSet where
  apps := strs
    ["whatsapp", "telegram", "signal", "messenger", "imessage",
     "instagram", "facebook", "twitter", "snapchat", "tiktok",
     "youtube", "spotify", "netflix", "amazon", "uber", "lyft",
     "maps", "weather", "news", "reddit", "discord", "twitch",
     "banking", "bank", "paypal", "venmo", "cashapp", "zelle",
     "fitness", "health", "calendar", "photos", "camera"]
  content := strs
    ["friend", "family", "mom", "dad", "brother", "sister",
     "birthday", "anniversary", "vacation", "holiday", "weekend",
     "dinner", "lunch", "coffee", "movie", "game", "party",
     "personal", "private", "home", "house", "apartment",
     "love", "miss", "care", "thanks", "congratulations",
     "reminder", "appointment", "doctor", "dentist", "gym",
     "workout", "exercise", "recipe", "cooking", "shopping"]

/-- The regex `\d+%\s*off`. -/
def junkPat1 : Str × List RAtom :=
  ("\\d+%\\s*off".data, [.digits, .lit '%', .ws0] ++ lits ("off".data))

/-- The regex `free\s+shipping`. -/
def junkPat2 : Str × List RAtom :=
  ("free\\s+shipping".data, lits ("free".data) ++ [.ws1] ++ lits ("shipping".data))

/-- The regex `buy\s+\d+\s+get\s+\d+`. -/
def junkPat3 : Str × List RAtom :=
  ("buy\\s+\\d+\\s+get\\s+\\d+".data,
   lits ("buy".data) ++ [.ws1, .digits, .ws1] ++ lits ("get".data) ++ [.ws1, .digits])

/-- The regex `\$\d+\.\d{2}`. -/
def junkPat4 : Str × List RAtom :=
  ("\\$\\d+\\.\\d\x7b2\x7d".data, [.lit '$', .digits, .lit '.', .digit2])

/-- The regex `limited\s+time`. -/
def junkPat5 : Str × List RAtom :=
  ("limited\\s+time".data, lits ("limited".data) ++ [.ws1] ++ lits ("time".data))

/-- The regex `act\s+now`. -/
def junkPat6 : Str × List RAtom :=
  ("act\\s+now".data, lits ("act".data) ++ [.ws1] ++ lits ("now".data))

/-- The regex `click\s+here`. -/
def junkPat7 : Str × List RAtom :=
  ("click\\s+here".data, lits ("click".data) ++ [.ws1] ++ lits ("here".data))

/-- The table `self.junk_keywords`. -/
def junk_keywords : KeywordSet where
  apps := strs
    ["marketing", "promo", "deals", "offers", "shopping",
     "retail", "store", "mall", "advertisement", "ad",
     "spam", "newsletter", "subscription", "promotion"]
  content := strs
    ["sale", "discount", "offer", "deal", "promotion", "coupon",
     "limited time", "buy now", "shop", "free shipping", "% off",
     "unsubscribe", "marketing", "newsletter", "advertisement",
     "click here", "act now", "hurry", "expires", "last chance",
     "winner", "congratulations", "prize", "lottery", "jackpot",
     "free", "bonus", "reward", "cashback", "refund",
     "viagra", "casino", "gambling", "loan", "credit",
     "weight loss", "diet", "supplement", "miracle"]
  patterns := [junkPat1, junkPat2, junkPat3, junkPat4, junkPat5, junkPat6, junkPat7]

/-- One category's learned patterns: the `{'apps': {...}, 'content': {...}}`
record.  Both maps are always present, mirroring the invariant that every
category key holds both maps.  Dicts are association lists in insertion
order. -/
structure CatPatterns where
  apps : List (Str × ℚ)
  content : List (Str × ℚ)
deriving DecidableEq

/-- The store `self.learned_patterns`: the three category keys, in the fixed Python
`dict` insertion (and hence iteration) order Work, Personal, Junk. -/
structure LearnedPatterns where
  work : CatPatterns
  personal : CatPatterns
  junk : CatPatterns
deriving DecidableEq

/-- Indexing `self.learned_patterns[category]`. -/
def getPatterns (lp : LearnedPatterns) : NotificationCategory → CatPatterns
  | .work => lp.work
  | .personal => lp.personal
  | .junk => lp.junk

/-- Writing `self.learned_patterns[category] = p`. -/
def setPatterns (lp : LearnedPatterns) : NotificationCategory → CatPatterns → LearnedPatterns
  | .work, p => { lp with work := p }
  | .personal, p => { lp with personal := p }
  | .junk, p => { lp with junk := p }

/-- Python dict assignment `m[k] = v`: update in place if the key is
present (keeping its position), otherwise append. -/
def dictSet (m : List (Str × ℚ)) (k : Str) (v : ℚ) : List (Str × ℚ) :=
  if m.any (fun kv => kv.1 == k) then
    m.map (fun kv => if kv.1 == k then (kv.1, v) else kv)
  else
    m ++ [(k, v)]

/-- Python `m.get(k, d)`. -/
def dictGetD (m : List (Str × ℚ)) (k : Str) (d : ℚ) : ℚ :=
  (List.lookup k m).getD d

/-- Model of `_load_learned_patterns` with no Redis client: the empty store. -/
def empty_patterns : LearnedPatterns :=
  { work := ⟨[], []⟩, personal := ⟨[], []⟩, junk := ⟨[], []⟩ }

/-- The learned-content scan of `_check_learned_patterns` for one category:
the first learned content key (in dict order) that is a substring of the
content and has confidence > 0.7. -/
def checkCatContent (category : NotificationCategory) (p : CatPatterns)
    (content : Str) : Option ClassificationResult :=
  match p.content.find?
      (fun kv => isSubstr kv.1 content && decide ((0.7 : ℚ) < kv.2)) with
  | some kv =>
    some
      { category := category
        confidence := kv.2
        reasoning := "Learned from user feedback: '".data ++ kv.1
          ++ "' → ".data ++ catValue category
        matched_keywords := [kv.1] }
  | none => none

/-- The body of `_check_learned_patterns` for one category: the exact app
match (confidence > 0.7) takes precedence; otherwise (also when the app is
a key with confidence ≤ 0.7) the learned content keys are scanned. -/
def checkCat (category : NotificationCategory) (p : CatPatterns)
    (app_name content : Str) : Option ClassificationResult :=
  match List.lookup app_name p.apps with
  | some app_confidence =>
    if 0.7 < app_confidence then
      some
        { category := category
          confidence := app_confidence
          reasoning := "Learned from user feedback: ".data ++ app_name
            ++ " → ".data ++ catValue category
          matched_keywords := [app_name] }
    else checkCatContent category p content
  | none => checkCatContent category p content

/-- Model of `_check_learned_patterns`: scan the categories in dict iteration order
(Work, Personal, Junk); the first qualifying hit wins. -/
def check_learned_patterns (lp : LearnedPatterns) (app_name content : Str) :
    Option ClassificationResult :=
  match checkCat .work lp.work app_name content with
  | some r => some r
  | none =>
    match checkCat .personal lp.personal app_name content with
    | some r => some r
    | none => checkCat .junk lp.junk app_name content

/-- Model of `_calculate_category_score`: apps are substrings of the app name at
weight 3.0, content keywords substrings of the content at weight 1.0,
regexes searched in the content at weight 2.0, domains substrings of the
content at weight 1.5; matches are recorded in that order, tagged by kind. -/
def calculate_category_score (keywords : KeywordSet) (app_name content : Str) :
    ℚ × List Str :=
  let am := keywords.apps.filter (fun a => isSubstr a app_name)
  let cm := keywords.content.filter (fun k => isSubstr k content)
  let pm := keywords.patterns.filter (fun p => reFind p.2 content)
  let dm := keywords.domains.filter (fun d => isSubstr d content)
  (3 * am.length + cm.length + 2 * pm.length + 1.5 * dm.length,
    am.map (fun a => "app:".data ++ a)
      ++ cm.map (fun k => "keyword:".data ++ k)
      ++ pm.map (fun p => "pattern:".data ++ p.1)
      ++ dm.map (fun d => "domain:".data ++ d))

/-- Model of the Python split `m.split` at the first colon, keeping the tail. -/
def afterColon (m : Str) : Str := (m.dropWhile (fun c => c != ':')).drop 1

/-- Model of `_generate_reasoning`. -/
def generate_reasoning (category : NotificationCategory) (matchList : List Str)
    (app_name : Str) : Str :=
  if matchList.isEmpty then
    "Classified as ".data ++ catValue category ++ " based on general patterns".data
  else
    let appMatches := matchList.filter (fun m => List.isPrefixOf ("app:".data) m)
    let keywordMatches := matchList.filter (fun m => List.isPrefixOf ("keyword:".data) m)
    let patternMatches := matchList.filter (fun m => List.isPrefixOf ("pattern:".data) m)
    let reasons : List Str :=
      (if appMatches.isEmpty then []
       else ["app '".data ++ app_name ++ "' matches ".data
          ++ lowerS (catValue category) ++ " apps".data])
      ++ (if keywordMatches.isEmpty then []
          else ["contains ".data ++ lowerS (catValue category)
            ++ " keywords: ".data
            ++ List.intercalate (", ".data) ((keywordMatches.take 3).map afterColon)])
      ++ (if patternMatches.isEmpty then []
          else ["matches ".data ++ lowerS (catValue category) ++ " patterns".data])
    "Classified as ".data ++ catValue category ++ ": ".data
      ++ List.intercalate ("; ".data) reasons

/-- Entries sorted by `classify`: (category, score, matches). -/
abbrev ScoredCat := NotificationCategory × ℚ × List Str

/-- Stable descending insertion: an element goes in front of every element
of smaller *or equal* score already placed to its right, so together with
`List.foldr` this is Python's stable `list.sort(key=score, reverse=True)`. -/
def insertScoreDesc (x : ScoredCat) : List ScoredCat → List ScoredCat
  | [] => [x]
  | y :: ys => if y.2.1 ≤ x.2.1 then x :: y :: ys else y :: insertScoreDesc x ys

/-- Model of `scores.sort(key=lambda x: x[1], reverse=True)` (stable). -/
def sortScoresDesc (l : List ScoredCat) : List ScoredCat :=
  l.foldr insertScoreDesc []

/-- The fixed fallback result of `classify` when no category scored. -/
def defaultResult : ClassificationResult :=
  { category := .personal
    confidence := 0.5
    reasoning := "No specific patterns matched, defaulting to Personal".data
    matched_keywords := [] }

/-- The scored entries `classify` builds and then ranks: the (category,
score, matches) triples for Work, Personal, Junk, in that original order. -/
def scoredEntries (app_name content : Str) : List ScoredCat :=
  [(.work, (calculate_category_score work_keywords app_name content).1,
      (calculate_category_score work_keywords app_name content).2),
   (.personal, (calculate_category_score personal_keywords app_name content).1,
      (calculate_category_score personal_keywords app_name content).2),
   (.junk, (calculate_category_score junk_keywords app_name content).1,
      (calculate_category_score junk_keywords app_name content).2)]

/-- The body of `classify` after input normalization.  (The source computes
the confidence under `if len(scores) > 1`, which always holds for the
three-entry list; the defensive `| _ =>` arm is unreachable.) -/
def classifyNormalized (lp : LearnedPatterns) (app_name content : Str) :
    ClassificationResult :=
  match check_learned_patterns lp app_name content with
  | some r => r
  | none =>
    match sortScoresDesc (scoredEntries app_name content) with
    | best :: second :: _ =>
      if best.2.1 = 0 then defaultResult
      else
        { category := best.1
          confidence :=
            min 0.95 (max 0.5 ((best.2.1 - second.2.1) / max best.2.1 1))
          reasoning := generate_reasoning best.1 best.2.2 app_name
          matched_keywords := best.2.2 }
    | _ => defaultResult

/-- Model of `classify`: normalize the inputs (lowercase and strip; the content is
`f"{title} {body}"`), consult the learned patterns, otherwise score the
three categories and rank them. -/
def classify (lp : LearnedPatterns) (app_name : Str) (title : Str := [])
    (body : Str := []) : ClassificationResult :=
  classifyNormalized lp (strip (lowerS app_name))
    (strip (lowerS (title ++ [' '] ++ body)))

/-- The content update of `learn_from_feedback` for one word:
`content[word] = min(0.9, content.get(word, 0.5) + 0.05)`. -/
def bumpContent (m : List (Str × ℚ)) (word : Str) : List (Str × ℚ) :=
  dictSet m word (min 0.9 (dictGetD m word 0.5 + 0.05))

/-- Model of `learn_from_feedback`: bump the normalized app name by 0.1 (clamped at
0.95, only when non-empty) and the first five extracted content words by
0.05 (clamped at 0.9, only those longer than 3 characters) in the actual
category's patterns.  `content_words` is
`re.findall` of `\b\w{3,}\b`, i.e. the maximal word-character runs
of length ≥ 3.  (The `if correct_category not in self.learned_patterns`
guard never fires: all three keys are always present.) -/
def learn_from_feedback (lp : LearnedPatterns) (feedback : UserFeedback) :
    LearnedPatterns :=
  let app_name := strip (lowerS feedback.app_name)
  let content := strip (lowerS (feedback.title ++ [' '] ++ feedback.body))
  let correct_category := feedback.actual_category
  let p := getPatterns lp correct_category
  let p :=
    if app_name.isEmpty then p
    else { p with
      apps := dictSet p.apps app_name
        (min 0.95 (dictGetD p.apps app_name 0.5 + 0.1)) }
  let content_words := (wordRuns content).filter (fun w => 3 ≤ w.length)
  let p :=
    { p with
      content := (content_words.take 5).foldl
        (fun m word => if 3 < word.length then bumpContent m word else m)
        p.content }
  setPatterns lp correct_category p

/-- Model of `reset_learned_patterns`: replace the table by empty per-category maps. -/
def reset_learned_patterns (_ : LearnedPatterns) : LearnedPatterns :=
  empty_patterns

/-- Stable descending insertion by confidence (Python's stable
`sorted(items, key=lambda x: x[1], reverse=True)`). -/
def insertConfDesc (x : Str × ℚ) : List (Str × ℚ) → List (Str × ℚ)
  | [] => [x]
  | y :: ys => if y.2 ≤ x.2 then x :: y :: ys else y :: insertConfDesc x ys

/-- Model of `sorted(items, key=lambda x: x[1], reverse=True)`. -/
def sortConfDesc (l : List (Str × ℚ)) : List (Str × ℚ) :=
  l.foldr insertConfDesc []

/-- One category's entry of `get_category_stats`. -/
structure CategoryStats where
  learned_apps : Nat
  learned_content_patterns : Nat
  top_apps : List (Str × ℚ)
  top_content_patterns : List (Str × ℚ)
deriving DecidableEq

/-- Model of `get_category_stats` for one category. -/
def statsFor (p : CatPatterns) : CategoryStats :=
  { learned_apps := p.apps.length
    learned_content_patterns := p.content.length
    top_apps := (sortConfDesc p.apps).take 5
    top_content_patterns := (sortConfDesc p.content).take 10 }

/-- Model of `get_category_stats`, keyed by `category.value` in iteration order. -/
def get_category_stats (lp : LearnedPatterns) : List (Str × CategoryStats) :=
  [(catValue .work, statsFor lp.work),
   (catValue .personal, statsFor lp.personal),
   (catValue .junk, statsFor lp.junk)]

/-- Model of `classify` as a state transformer on the classifier's mutable state:
the method only reads `self.learned_patterns`, so the post-state is the
pre-state. -/
def classifyOp (lp : LearnedPatterns) (app_name title body : Str) :
    ClassificationResult × LearnedPatterns :=
  (classify lp app_name title body, lp)

/-- Model of `get_category_stats` as a state transformer (read-only). -/
def getCategoryStatsOp (lp : LearnedPatterns) :
    List (Str × CategoryStats) × LearnedPatterns :=
  (get_category_stats lp, lp)

/-- Learned-pattern store states reachable by the store's own operations
(starting from the empty store; `classify` and `get_category_stats` do not
change the state). -/
inductive Reach : LearnedPatterns → Prop
  | init : Reach empty_patterns
  | learn (s : LearnedPatterns) (fb : UserFeedback) :
      Reach s → Reach (learn_from_feedback s fb)
  | reset (s : LearnedPatterns) : Reach s → Reach (reset_learned_patterns s)

/-- The confidence-bound invariant for one category's patterns: apps are
in [0, 0.95], content in [0, 0.9]. -/
def patsOK (p : CatPatterns) : Prop :=
  (∀ kv ∈ p.apps, 0 ≤ kv.2 ∧ kv.2 ≤ 0.95)
    ∧ (∀ kv ∈ p.content, 0 ≤ kv.2 ∧ kv.2 ≤ 0.9)

/-- The learned-pattern store invariant (the presence of both maps per
category is structural in `CatPatterns`). -/
def StoreInv (lp : LearnedPatterns) : Prop :=
  patsOK lp.work ∧ patsOK lp.personal ∧ patsOK lp.junk

/-- The categories scanned before a given category by
`_check_learned_patterns`, in the fixed dict iteration order
Work, Personal, Junk. -/
def earlierCats : NotificationCategory → List NotificationCategory
  | .work => []
  | .personal => [.work]
  | .junk => [.work, .personal]

/-- A feedback event correcting app "zzz" to Junk. -/
def fbJunkZzz : UserFeedback := ⟨"zzz".data, [], [], .personal, .junk, 0⟩

/-- A feedback event correcting app "zzz" to Work. -/
def fbWorkZzz : UserFeedback := ⟨"zzz".data, [], [], .personal, .work, 1⟩

/-- The store after three Junk feedbacks and three Work feedbacks for app
"zzz": both categories then hold confidence 0.8 for "zzz". -/
def conflictStore : LearnedPatterns :=
  learn_from_feedback (learn_from_feedback (learn_from_feedback
    (learn_from_feedback (learn_from_feedback (learn_from_feedback
      empty_patterns fbJunkZzz) fbJunkZzz) fbJunkZzz)
    fbWorkZzz) fbWorkZzz) fbWorkZzz

/-- The store after three Work feedbacks for app "zzz". -/
def workZzzStore : LearnedPatterns :=
  learn_from_feedback (learn_from_feedback (learn_from_feedback
    empty_patterns fbWorkZzz) fbWorkZzz) fbWorkZzz

/-- The content tokens `learn_from_feedback` writes for a feedback event:
the maximal word-character runs of length ≥ 3 in the normalized title+body
(`re.findall` of `\b\w{3,}\b`), of which at most the first five are
taken, restricted to those strictly longer than 3 characters. -/
def writtenTokens (fb : UserFeedback) : List Str :=
  (((wordRuns (strip (lowerS (fb.title ++ [' '] ++ fb.body)))).filter
    (fun w => 3 ≤ w.length)).take 5).filter (fun w => 3 < w.length)

/-- A feedback event with two long content words and one three-letter one. -/
def fbHello : UserFeedback :=
  ⟨"app".data, "hello world".data, "bye".data, .work, .junk, 0⟩

/-! Association-list (Python dict) lemmas -/

theorem lookup_cons (k k1 : Str) (v1 : ℚ) (t : List (Str × ℚ)) :
    List.lookup k ((k1, v1) :: t)
      = if k = k1 then some v1 else List.lookup k t := by
  rw [List.lookup]
  by_cases h : k = k1
  · simp [h]
  · simp [beq_false_of_ne h, h]

theorem lookup_mem {k : Str} {m : List (Str × ℚ)} {v : ℚ}
    (h : List.lookup k m = some v) : (k, v) ∈ m := by
  induction m with
  | nil => simp [List.lookup] at h
  | cons kv t ih =>
    rcases kv with ⟨k1, v1⟩
    rw [lookup_cons] at h
    by_cases hk : k = k1
    · rw [if_pos hk] at h
      simp only [Option.some_inj] at h
      simp [hk, h]
    · rw [if_neg hk] at h
      exact List.mem_cons_of_mem _ (ih h)

theorem lookup_append_single_self {m : List (Str × ℚ)} {k : Str} {v : ℚ}
    (h : m.any (fun kv => kv.1 == k) = false) :
    List.lookup k (m ++ [(k, v)]) = some v := by
  induction m with
  | nil => simp [lookup_cons]
  | cons kv t ih =>
    rcases kv with ⟨k1, v1⟩
    simp only [List.any_cons, Bool.or_eq_false_iff, beq_eq_false_iff_ne] at h
    rw [List.cons_append, lookup_cons, if_neg (fun he => h.1 he.symm)]
    exact ih (by simpa using h.2)

theorem lookup_append_single_ne {m : List (Str × ℚ)} {k k' : Str} {v : ℚ}
    (h : k ≠ k') : List.lookup k (m ++ [(k', v)]) = List.lookup k m := by
  induction m with
  | nil =>
    rw [List.nil_append, lookup_cons, if_neg h]
  | cons kv t ih =>
    rcases kv with ⟨k1, v1⟩
    rw [List.cons_append, lookup_cons, lookup_cons, ih]

theorem lookup_map_update_ne {m : List (Str × ℚ)} {k k' : Str} {v : ℚ}
    (h : k ≠ k') :
    List.lookup k (m.map (fun kv => if kv.1 == k' then (kv.1, v) else kv))
      = List.lookup k m := by
  induction m with
  | nil => rfl
  | cons kv t ih =>
    rcases kv with ⟨k1, v1⟩
    by_cases h1 : k1 = k'
    · subst h1
      simp only [List.map_cons, beq_self_eq_true, if_true]
      rw [lookup_cons, lookup_cons, if_neg h, if_neg h, ih]
    · simp only [List.map_cons, beq_false_of_ne h1, Bool.false_eq_true,
        if_false]
      rw [lookup_cons, lookup_cons, ih]

theorem lookup_map_update_self {m : List (Str × ℚ)} {k : Str} {v : ℚ}
    (h : m.any (fun kv => kv.1 == k) = true) :
    List.lookup k (m.map (fun kv => if kv.1 == k then (kv.1, v) else kv))
      = some v := by
  induction m with
  | nil => simp at h
  | cons kv t ih =>
    rcases kv with ⟨k1, v1⟩
    by_cases h1 : k1 = k
    · subst h1
      simp only [List.map_cons, beq_self_eq_true, if_true]
      rw [lookup_cons, if_pos rfl]
    · simp only [List.any_cons] at h
      rcases Bool.or_eq_true_iff.1 h with h' | h'
      · exact absurd (by simpa using h') h1
      · simp only [List.map_cons, beq_false_of_ne h1, Bool.false_eq_true,
          if_false]
        rw [lookup_cons, if_neg (fun he => h1 he.symm)]
        exact ih h'

/-- Python dict semantics of `dictSet` at the level of `lookup`. -/
theorem lookup_dictSet (m : List (Str × ℚ)) (k' : Str) (v : ℚ) (k : Str) :
    List.lookup k (dictSet m k' v)
      = if k = k' then some v else List.lookup k m := by
  unfold dictSet
  by_cases hk : k = k'
  · subst hk
    rw [if_pos rfl]
    by_cases h : (m.any fun kv => kv.1 == k) = true
    · rw [if_pos h]
      exact lookup_map_update_self h
    · rw [if_neg h]
      exact lookup_append_single_self (Bool.eq_false_iff.mpr h)
  · rw [if_neg hk]
    by_cases h : (m.any fun kv => kv.1 == k') = true
    · rw [if_pos h]
      exact lookup_map_update_ne hk
    · rw [if_neg h]
      exact lookup_append_single_ne hk

/-- The update `dictSet` preserves a bound satisfied by the old values and the new one. -/
theorem dictSet_forall {P : ℚ → Prop} {m : List (Str × ℚ)} {k : Str} {v : ℚ}
    (hm : ∀ kv ∈ m, P kv.2) (hv : P v) :
    ∀ kv ∈ dictSet m k v, P kv.2 := by
  intro kv hkv
  unfold dictSet at hkv
  split at hkv
  · obtain ⟨kv', hmem, hf⟩ := List.mem_map.1 hkv
    by_cases h1 : kv'.1 = k
    · rw [if_pos (by simpa using h1)] at hf
      rw [← hf]
      exact hv
    · rw [if_neg (by simpa using h1)] at hf
      rw [← hf]
      exact hm _ hmem
  · rcases List.mem_append.1 hkv with h | h
    · exact hm _ h
    · simp only [List.mem_singleton] at h
      rw [h]
      exact hv

/-- The default of `dict.get(k, d)` is bounded below by the stored bound. -/
theorem dictGetD_nonneg {m : List (Str × ℚ)} {k : Str} {d : ℚ}
    (hm : ∀ kv ∈ m, 0 ≤ kv.2) (hd : 0 ≤ d) : 0 ≤ dictGetD m k d := by
  unfold dictGetD
  cases h : List.lookup k m with
  | none => simpa
  | some q => simpa using hm _ (lookup_mem h)

/-! Character-case lemmas -/

theorem toNatOfNatValid (n : Nat) (h : n.isValidChar) :
    (Char.ofNat n).toNat = n := by
  simp [Char.ofNat, h, Char.ofNatAux, Char.toNat]
  rfl

theorem lowerChar_upperChar (c : Char) :
    lowerChar (upperChar c) = lowerChar c := by
  unfold lowerChar upperChar
  by_cases h : 97 ≤ c.toNat ∧ c.toNat ≤ 122
  · have hv : (c.toNat - 32).isValidChar := by
      left
      omega
    rw [if_pos h, toNatOfNatValid _ hv]
    have h1 : 65 ≤ c.toNat - 32 ∧ c.toNat - 32 ≤ 90 := by omega
    have h2 : ¬(65 ≤ c.toNat ∧ c.toNat ≤ 90) := by omega
    rw [if_pos h1, if_neg h2]
    have h3 : c.toNat - 32 + 32 = c.toNat := by omega
    rw [h3]
    exact Char.ofNat_toNat c
  · rw [if_neg h]

theorem lowerChar_lowerChar (c : Char) :
    lowerChar (lowerChar c) = lowerChar c := by
  by_cases h : 65 ≤ c.toNat ∧ c.toNat ≤ 90
  · have hv : (c.toNat + 32).isValidChar := by
      left
      omega
    have h1 : lowerChar c = Char.ofNat (c.toNat + 32) := by
      unfold lowerChar
      rw [if_pos h]
    rw [h1]
    unfold lowerChar
    rw [toNatOfNatValid _ hv,
      if_neg (by omega : ¬(65 ≤ c.toNat + 32 ∧ c.toNat + 32 ≤ 90))]
  · have h1 : lowerChar c = c := by
      unfold lowerChar
      rw [if_neg h]
    rw [h1, h1]

theorem lowerS_append (x y : Str) : lowerS (x ++ y) = lowerS x ++ lowerS y :=
  List.map_append _ _ _

theorem lowerS_upperS (s : Str) : lowerS (upperS s) = lowerS (lowerS s) := by
  unfold lowerS upperS
  rw [List.map_map, List.map_map]
  exact List.map_congr_left fun c _ => by
    simp only [Function.comp_apply, lowerChar_upperChar, lowerChar_lowerChar]

/-! Store-invariant lemmas -/

theorem patsOK_getPatterns {lp : LearnedPatterns} (h : StoreInv lp)
    (cat : NotificationCategory) : patsOK (getPatterns lp cat) := by
  cases cat
  · exact h.1
  · exact h.2.1
  · exact h.2.2

theorem storeInv_setPatterns {lp : LearnedPatterns} {p : CatPatterns}
    (cat : NotificationCategory) (hlp : StoreInv lp) (hp : patsOK p) :
    StoreInv (setPatterns lp cat p) := by
  cases cat
  · exact ⟨hp, hlp.2.1, hlp.2.2⟩
  · exact ⟨hlp.1, hp, hlp.2.2⟩
  · exact ⟨hlp.1, hlp.2.1, hp⟩

theorem storeInv_empty : StoreInv empty_patterns := by
  refine ⟨⟨?_, ?_⟩, ⟨?_, ?_⟩, ⟨?_, ?_⟩⟩ <;> intro kv hkv <;> simp [empty_patterns] at hkv

theorem bumpContent_bounds {m : List (Str × ℚ)}
    (hm : ∀ kv ∈ m, 0 ≤ kv.2 ∧ kv.2 ≤ 0.9) (w : Str) :
    ∀ kv ∈ bumpContent m w, 0 ≤ kv.2 ∧ kv.2 ≤ 0.9 := by
  unfold bumpContent
  have hd : 0 ≤ dictGetD m w 0.5 :=
    dictGetD_nonneg (fun kv hkv => (hm kv hkv).1) (by norm_num)
  refine dictSet_forall (P := fun q => 0 ≤ q ∧ q ≤ 0.9) hm
    ⟨?_, min_le_left _ _⟩
  have h5 : (0 : ℚ) ≤ dictGetD m w 0.5 + 0.05 := by linarith
  exact le_min (by norm_num) h5

theorem foldl_bumpGuard_bounds (l : List Str) (m : List (Str × ℚ))
    (hm : ∀ kv ∈ m, 0 ≤ kv.2 ∧ kv.2 ≤ 0.9) :
    ∀ kv ∈ l.foldl
      (fun m word => if 3 < word.length then bumpContent m word else m) m,
      0 ≤ kv.2 ∧ kv.2 ≤ 0.9 := by
  induction l generalizing m with
  | nil => exact hm
  | cons w t ih =>
    rw [List.foldl_cons]
    by_cases hw : 3 < w.length
    · rw [if_pos hw]
      exact ih _ (bumpContent_bounds hm w)
    · rw [if_neg hw]
      exact ih _ hm

theorem patsOK_learn_step {p : CatPatterns} (hp : patsOK p) (app_name : Str)
    (tokens : List Str) :
    patsOK
      { apps :=
          if app_name.isEmpty then p.apps
          else dictSet p.apps app_name
            (min 0.95 (dictGetD p.apps app_name 0.5 + 0.1))
        content := tokens.foldl
          (fun m word => if 3 < word.length then bumpContent m word else m)
          p.content } := by
  constructor
  · by_cases ha : app_name.isEmpty
    · rw [if_pos ha]
      exact hp.1
    · rw [if_neg ha]
      have hd : 0 ≤ dictGetD p.apps app_name 0.5 :=
        dictGetD_nonneg (fun kv hkv => (hp.1 kv hkv).1) (by norm_num)
      refine dictSet_forall (P := fun q => 0 ≤ q ∧ q ≤ 0.95) hp.1
        ⟨?_, min_le_left _ _⟩
      have h5 : (0 : ℚ) ≤ dictGetD p.apps app_name 0.5 + 0.1 := by linarith
      exact le_min (by norm_num) h5
  · exact foldl_bumpGuard_bounds _ _ hp.2

theorem storeInv_learn (lp : LearnedPatterns) (fb : UserFeedback)
    (h : StoreInv lp) : StoreInv (learn_from_feedback lp fb) := by
  unfold learn_from_feedback
  apply storeInv_setPatterns _ h
  by_cases ha : (strip (lowerS fb.app_name)).isEmpty
  · simp only [ha, if_true]
    have := patsOK_learn_step (patsOK_getPatterns h fb.actual_category)
      (strip (lowerS fb.app_name))
      (((wordRuns (strip (lowerS (fb.title ++ [' '] ++ fb.body)))).filter
        (fun w => 3 ≤ w.length)).take 5)
    rw [if_pos ha] at this
    exact this
  · simp only [ha, if_false]
    have := patsOK_learn_step (patsOK_getPatterns h fb.actual_category)
      (strip (lowerS fb.app_name))
      (((wordRuns (strip (lowerS (fb.title ++ [' '] ++ fb.body)))).filter
        (fun w => 3 ≤ w.length)).take 5)
    rw [if_neg ha] at this
    exact this

theorem storeInv_reset (lp : LearnedPatterns) :
    StoreInv (reset_learned_patterns lp) := storeInv_empty

theorem reach_storeInv {lp : LearnedPatterns} (h : Reach lp) : StoreInv lp := by
  induction h with
  | init => exact storeInv_empty
  | learn s fb _ ih => exact storeInv_learn s fb ih
  | reset s _ _ => exact storeInv_reset s

/-! Bounds on results of the learned-pattern lookup -/

theorem checkCatContent_bounds {cat : NotificationCategory} {p : CatPatterns}
    {content : Str} {r : ClassificationResult} (hp : patsOK p)
    (h : checkCatContent cat p content = some r) :
    0.7 < r.confidence ∧ r.confidence ≤ 0.95 ∧ r.category = cat := by
  unfold checkCatContent at h
  split at h
  next kv hf =>
    simp only [Option.some_inj] at h
    have hpred := List.find?_some hf
    simp only [Bool.and_eq_true, decide_eq_true_eq] at hpred
    have hmem := List.mem_of_find?_eq_some hf
    rw [← h]
    exact ⟨hpred.2, le_trans (hp.2 _ hmem).2 (by norm_num), rfl⟩
  next => exact absurd h (by simp)

theorem checkCat_bounds {cat : NotificationCategory} {p : CatPatterns}
    {app_name content : Str} {r : ClassificationResult} (hp : patsOK p)
    (h : checkCat cat p app_name content = some r) :
    0.7 < r.confidence ∧ r.confidence ≤ 0.95 ∧ r.category = cat := by
  unfold checkCat at h
  split at h
  next conf hl =>
    split at h
    next hc =>
      simp only [Option.some_inj] at h
      rw [← h]
      exact ⟨hc, (hp.1 _ (lookup_mem hl)).2, rfl⟩
    next => exact checkCatContent_bounds hp h
  next => exact checkCatContent_bounds hp h

theorem check_learned_bounds {lp : LearnedPatterns} {app_name content : Str}
    {r : ClassificationResult} (hlp : StoreInv lp)
    (h : check_learned_patterns lp app_name content = some r) :
    0.7 < r.confidence ∧ r.confidence ≤ 0.95 := by
  unfold check_learned_patterns at h
  cases h1 : checkCat .work lp.work app_name content with
  | some r1 =>
    rw [h1] at h
    simp only [Option.some_inj] at h
    have := checkCat_bounds hlp.1 h1
    rw [h] at this
    exact ⟨this.1, this.2.1⟩
  | none =>
    rw [h1] at h
    cases h2 : checkCat .personal lp.personal app_name content with
    | some r2 =>
      rw [h2] at h
      simp only [Option.some_inj] at h
      have := checkCat_bounds hlp.2.1 h2
      rw [h] at this
      exact ⟨this.1, this.2.1⟩
    | none =>
      rw [h2] at h
      have := checkCat_bounds hlp.2.2 h
      exact ⟨this.1, this.2.1⟩

/-! Characterization of the three-way score ranking -/

theorem insertScoreDesc_nil (x : ScoredCat) : insertScoreDesc x [] = [x] := rfl

theorem insertScoreDesc_cons (x y : ScoredCat) (ys : List ScoredCat) :
    insertScoreDesc x (y :: ys)
      = if y.2.1 ≤ x.2.1 then x :: y :: ys else y :: insertScoreDesc x ys := rfl

/-- Sorting three entries by score, stable descending: the head carries the
maximum score and the second entry the second-largest score. -/
theorem sortScoresDesc_three (a b c : ScoredCat) :
    ∃ x y z : ScoredCat, sortScoresDesc [a, b, c] = [x, y, z] ∧
      x.2.1 = max a.2.1 (max b.2.1 c.2.1) ∧
      y.2.1 = max (min a.2.1 b.2.1) (min (max a.2.1 b.2.1) c.2.1) := by
  have e : sortScoresDesc [a, b, c]
      = insertScoreDesc a (insertScoreDesc b [c]) := rfl
  rw [e, insertScoreDesc_cons b c []]
  by_cases h1 : c.2.1 ≤ b.2.1
  · rw [if_pos h1, insertScoreDesc_cons]
    by_cases h2 : b.2.1 ≤ a.2.1
    · rw [if_pos h2]
      exact ⟨a, b, c, rfl,
        by simp only [max_def, min_def]; split_ifs <;> linarith,
        by simp only [max_def, min_def]; split_ifs <;> linarith⟩
    · rw [if_neg h2, insertScoreDesc_cons]
      by_cases h3 : c.2.1 ≤ a.2.1
      · rw [if_pos h3]
        exact ⟨b, a, c, rfl,
          by simp only [max_def, min_def]; split_ifs <;> linarith,
          by simp only [max_def, min_def]; split_ifs <;> linarith⟩
      · rw [if_neg h3, insertScoreDesc_nil]
        exact ⟨b, c, a, rfl,
          by simp only [max_def, min_def]; split_ifs <;> linarith,
          by simp only [max_def, min_def]; split_ifs <;> linarith⟩
  · rw [if_neg h1, insertScoreDesc_nil, insertScoreDesc_cons]
    by_cases h2 : c.2.1 ≤ a.2.1
    · rw [if_pos h2]
      exact ⟨a, c, b, rfl,
        by simp only [max_def, min_def]; split_ifs <;> linarith,
        by simp only [max_def, min_def]; split_ifs <;> linarith⟩
    · rw [if_neg h2, insertScoreDesc_cons]
      by_cases h3 : b.2.1 ≤ a.2.1
      · rw [if_pos h3]
        exact ⟨c, a, b, rfl,
          by simp only [max_def, min_def]; split_ifs <;> linarith,
          by simp only [max_def, min_def]; split_ifs <;> linarith⟩
      · rw [if_neg h3, insertScoreDesc_nil]
        exact ⟨c, b, a, rfl,
          by simp only [max_def, min_def]; split_ifs <;> linarith,
          by simp only [max_def, min_def]; split_ifs <;> linarith⟩

/-- On the keyword-scoring path, `classifyNormalized` is determined by the
head and second entry of the stable descending ranking. -/
theorem classifyNormalized_none_eq {lp : LearnedPatterns} {app_name content : Str}
    (hc : check_learned_patterns lp app_name content = none)
    {x y z : ScoredCat}
    (hs : sortScoresDesc (scoredEntries app_name content) = [x, y, z]) :
    classifyNormalized lp app_name content
      = if x.2.1 = 0 then defaultResult
        else
          { category := x.1
            confidence := min 0.95 (max 0.5 ((x.2.1 - y.2.1) / max x.2.1 1))
            reasoning := generate_reasoning x.1 x.2.2 app_name
            matched_keywords := x.2.2 } := by
  unfold classifyNormalized
  rw [hc, hs]

/-! Feedback-update lemmas -/

theorem getPatterns_setPatterns_self (lp : LearnedPatterns)
    (cat : NotificationCategory) (p : CatPatterns) :
    getPatterns (setPatterns lp cat p) cat = p := by
  cases cat <;> rfl

theorem getPatterns_setPatterns_ne (lp : LearnedPatterns)
    {C cat : NotificationCategory} (p : CatPatterns) (h : C ≠ cat) :
    getPatterns (setPatterns lp cat p) C = getPatterns lp C := by
  cases cat <;> cases C <;> first | rfl | exact absurd rfl h

/-- The method `learn_from_feedback` written as one store update. -/
theorem learn_eq (lp : LearnedPatterns) (fb : UserFeedback) :
    learn_from_feedback lp fb
      = setPatterns lp fb.actual_category
        { apps :=
            if (strip (lowerS fb.app_name)).isEmpty
            then (getPatterns lp fb.actual_category).apps
            else dictSet (getPatterns lp fb.actual_category).apps
              (strip (lowerS fb.app_name))
              (min 0.95 (dictGetD (getPatterns lp fb.actual_category).apps
                (strip (lowerS fb.app_name)) 0.5 + 0.1))
          content :=
            (((wordRuns (strip (lowerS (fb.title ++ [' '] ++ fb.body)))).filter
              (fun w => 3 ≤ w.length)).take 5).foldl
              (fun m word => if 3 < word.length then bumpContent m word else m)
              (getPatterns lp fb.actual_category).content } := by
  by_cases ha : (strip (lowerS fb.app_name)).isEmpty
  · simp only [learn_from_feedback, if_pos ha]
  · simp only [learn_from_feedback, if_neg ha]

/-- The guarded fold of `learn_from_feedback` equals the unguarded fold
over the tokens longer than 3 characters. -/
theorem foldl_guard_eq_filter (l : List Str) (m : List (Str × ℚ)) :
    l.foldl (fun m word => if 3 < word.length then bumpContent m word else m) m
      = (l.filter (fun w => 3 < w.length)).foldl bumpContent m := by
  induction l generalizing m with
  | nil => rfl
  | cons w t ih =>
    rw [List.foldl_cons, List.filter_cons]
    by_cases hw : 3 < w.length
    · rw [if_pos hw, if_pos (by simpa using hw), List.foldl_cons]
      exact ih _
    · rw [if_neg hw, if_neg (by simpa using hw)]
      exact ih _

theorem lookup_bumpContent_self (m : List (Str × ℚ)) (k : Str) :
    List.lookup k (bumpContent m k)
      = some (min 0.9 (dictGetD m k 0.5 + 0.05)) := by
  unfold bumpContent
  rw [lookup_dictSet, if_pos rfl]

theorem lookup_bumpContent_ne (m : List (Str × ℚ)) {k w : Str} (h : k ≠ w) :
    List.lookup k (bumpContent m w) = List.lookup k m := by
  unfold bumpContent
  rw [lookup_dictSet, if_neg h]

theorem dictGetD_bumpContent_ne (m : List (Str × ℚ)) {k w : Str} (d : ℚ)
    (h : k ≠ w) : dictGetD (bumpContent m w) k d = dictGetD m k d := by
  unfold dictGetD
  rw [lookup_bumpContent_ne m h]

theorem lookup_foldl_bump_not_mem {k : Str} (l : List Str)
    (m : List (Str × ℚ)) (h : k ∉ l) :
    List.lookup k (l.foldl bumpContent m) = List.lookup k m := by
  induction l generalizing m with
  | nil => rfl
  | cons w t ih =>
    rw [List.foldl_cons]
    have hk : k ≠ w := fun he => h (he ▸ List.mem_cons_self w t)
    rw [ih _ (fun hm => h (List.mem_cons_of_mem _ hm)),
      lookup_bumpContent_ne _ hk]

theorem lookup_foldl_bump_count_one {k : Str} (l : List Str)
    (m : List (Str × ℚ)) (h : l.count k = 1) :
    List.lookup k (l.foldl bumpContent m)
      = some (min 0.9 (dictGetD m k 0.5 + 0.05)) := by
  induction l generalizing m with
  | nil => simp at h
  | cons w t ih =>
    rw [List.foldl_cons]
    by_cases hw : w = k
    · subst hw
      have ht : t.count w = 0 := by
        have := List.count_cons w w t
        simp only [beq_self_eq_true, if_true] at this
        omega
      have hnm : w ∉ t := List.count_eq_zero.1 ht
      rw [lookup_foldl_bump_not_mem t _ hnm, lookup_bumpContent_self]
    · have ht : t.count k = 1 := by
        have := List.count_cons k w t
        rw [beq_false_of_ne hw] at this
        simp only [Bool.false_eq_true, if_false] at this
        omega
      rw [ih _ ht, dictGetD_bumpContent_ne _ _ (fun he => hw he.symm)]

/-! Substring and reasoning lemmas -/

theorem isSubstr_of_isPrefixOf {s h : Str} (hp : List.isPrefixOf s h = true) :
    isSubstr s h = true := by
  cases h with
  | nil =>
    cases s with
    | nil => rfl
    | cons c cs => simp [List.isPrefixOf] at hp
  | cons c cs =>
    unfold isSubstr
    rw [hp, Bool.true_or]

/-- If the match list is non-empty but no entry has a recognized tag, the
reasoning is the bare prefix `Classified as <Category>: `. -/
theorem generate_reasoning_unrecognized (cat : NotificationCategory)
    (ms : List Str) (app_name : Str) (hne : ms ≠ [])
    (h : ∀ m ∈ ms, List.isPrefixOf ("app:".data) m = false
      ∧ List.isPrefixOf ("keyword:".data) m = false
      ∧ List.isPrefixOf ("pattern:".data) m = false) :
    generate_reasoning cat ms app_name
      = "Classified as ".data ++ catValue cat ++ ": ".data := by
  unfold generate_reasoning
  rw [if_neg (by simpa using hne)]
  have ha : ms.filter (fun m => List.isPrefixOf ("app:".data) m) = [] := by
    rw [List.filter_eq_nil_iff]
    intro m hm
    simp [(h m hm).1]
  have hk : ms.filter (fun m => List.isPrefixOf ("keyword:".data) m) = [] := by
    rw [List.filter_eq_nil_iff]
    intro m hm
    simp [(h m hm).2.1]
  have hp : ms.filter (fun m => List.isPrefixOf ("pattern:".data) m) = [] := by
    rw [List.filter_eq_nil_iff]
    intro m hm
    simp [(h m hm).2.2]
  rw [ha, hk, hp]
  simp [List.intercalate]

/-! Claim theorems -/

/-- C1: for every input (app_name, title, body) and every learned-pattern
store state reachable by the store's own operations, `classify` returns a
result whose confidence lies in [0, 1] and whose category is one of Work,
Personal, Junk. -/
theorem claim1_classify_bounds (lp : LearnedPatterns) (hreach : Reach lp)
    (a t b : Str) :
    (0 ≤ (classify lp a t b).confidence
        ∧ (classify lp a t b).confidence ≤ 1)
      ∧ ((classify lp a t b).category = .work
          ∨ (classify lp a t b).category = .personal
          ∨ (classify lp a t b).category = .junk) := by
  have hinv := reach_storeInv hreach
  constructor
  · unfold classify
    cases hc : check_learned_patterns lp (strip (lowerS a))
        (strip (lowerS (t ++ [' '] ++ b))) with
    | some r =>
      have e : classifyNormalized lp (strip (lowerS a))
          (strip (lowerS (t ++ [' '] ++ b))) = r := by
        unfold classifyNormalized
        rw [hc]
      rw [e]
      have hb := check_learned_bounds hinv hc
      exact ⟨by linarith [hb.1], by linarith [hb.2]⟩
    | none =>
      obtain ⟨x, y, z, hs, hx, hy⟩ := sortScoresDesc_three
        (.work,
          (calculate_category_score work_keywords (strip (lowerS a))
            (strip (lowerS (t ++ [' '] ++ b)))).1,
          (calculate_category_score work_keywords (strip (lowerS a))
            (strip (lowerS (t ++ [' '] ++ b)))).2)
        (.personal,
          (calculate_category_score personal_keywords (strip (lowerS a))
            (strip (lowerS (t ++ [' '] ++ b)))).1,
          (calculate_category_score personal_keywords (strip (lowerS a))
            (strip (lowerS (t ++ [' '] ++ b)))).2)
        (.junk,
          (calculate_category_score junk_keywords (strip (lowerS a))
            (strip (lowerS (t ++ [' '] ++ b)))).1,
          (calculate_category_score junk_keywords (strip (lowerS a))
            (strip (lowerS (t ++ [' '] ++ b)))).2)
      rw [classifyNormalized_none_eq hc hs]
      by_cases hz : x.2.1 = 0
      · rw [if_pos hz]
        norm_num [defaultResult]
      · rw [if_neg hz]
        have h1 : (0.5 : ℚ) ≤ max 0.5 ((x.2.1 - y.2.1) / max x.2.1 1) :=
          le_max_left _ _
        have h2 : min (0.95 : ℚ) (max 0.5 ((x.2.1 - y.2.1) / max x.2.1 1))
            ≤ 0.95 := min_le_left _ _
        have h3 : (0.5 : ℚ)
            ≤ min 0.95 (max 0.5 ((x.2.1 - y.2.1) / max x.2.1 1)) :=
          le_min (by norm_num) h1
        exact ⟨by linarith, by linarith⟩
  · cases hcat : (classify lp a t b).category
    · exact Or.inl rfl
    · exact Or.inr (Or.inl rfl)
    · exact Or.inr (Or.inr rfl)

/-- Witness for C1 at the empty store and the input "slack". -/
theorem claim1_witness :
    (0 ≤ (classify empty_patterns ("slack".data) [] []).confidence
        ∧ (classify empty_patterns ("slack".data) [] []).confidence ≤ 1)
      ∧ ((classify empty_patterns ("slack".data) [] []).category = .work
          ∨ (classify empty_patterns ("slack".data) [] []).category = .personal
          ∨ (classify empty_patterns ("slack".data) [] []).category = .junk) :=
  claim1_classify_bounds empty_patterns Reach.init ("slack".data) [] []

/-- C6: when app_name, title and body are all empty and the learned store
yields no hit, `classify` returns category Personal, confidence exactly
0.5, reasoning "No specific patterns matched, defaulting to Personal" and
an empty matched_keywords list. -/
theorem claim6_empty_inputs_default (lp : LearnedPatterns)
    (h : check_learned_patterns lp [] [] = none) :
    classify lp [] [] []
      = { category := .personal
          confidence := 0.5
          reasoning :=
            "No specific patterns matched, defaulting to Personal".data
          matched_keywords := [] } := by
  have e : classify lp [] [] [] = classifyNormalized lp [] [] := rfl
  rw [e]
  unfold classifyNormalized
  rw [h]
  with_unfolding_all rfl

/-- Witness for C6 at the empty store. -/
theorem claim6_witness :
    check_learned_patterns empty_patterns [] [] = none
      ∧ classify empty_patterns [] [] []
        = { category := .personal
            confidence := 0.5
            reasoning :=
              "No specific patterns matched, defaulting to Personal".data
            matched_keywords := [] } :=
  ⟨rfl, claim6_empty_inputs_default empty_patterns rfl⟩

/-- C7: the learned-pattern store invariant — both maps present per
category (structural in `CatPatterns`) and every stored confidence in
[0, ceiling] (0.95 for apps, 0.9 for content) — holds initially and is
preserved by `learn_from_feedback` and `reset_learned_patterns`, while
`classify` and `get_category_stats` leave the store unchanged. -/
theorem claim7_store_invariant :
    StoreInv empty_patterns
      ∧ (∀ lp fb, StoreInv lp → StoreInv (learn_from_feedback lp fb))
      ∧ (∀ lp, StoreInv (reset_learned_patterns lp))
      ∧ (∀ lp a t b, (classifyOp lp a t b).2 = lp)
      ∧ (∀ lp, (getCategoryStatsOp lp).2 = lp) :=
  ⟨storeInv_empty, storeInv_learn, storeInv_reset,
    fun _ _ _ _ => rfl, fun _ => rfl⟩

/-- Witness for C7: one feedback step from the empty store. -/
theorem claim7_witness :
    StoreInv (learn_from_feedback empty_patterns
      ⟨"slack".data, "meeting".data, [], .personal, .work, 0⟩) :=
  claim7_store_invariant.2.1 empty_patterns
    ⟨"slack".data, "meeting".data, [], .personal, .work, 0⟩
    claim7_store_invariant.1

/-- C9: `classify` is deterministic and leaves the learned-pattern store
unchanged: the post-state equals the pre-state, and a second call with the
same arguments on the post-state returns the same result.  (The keyword
rule table is a constant of the model and cannot change.) -/
theorem claim9_classify_pure (lp : LearnedPatterns) (a t b : Str) :
    (classifyOp lp a t b).2 = lp
      ∧ (classifyOp ((classifyOp lp a t b).2) a t b).1
        = (classifyOp lp a t b).1 :=
  ⟨rfl, rfl⟩

/-- C10: the store state produced by `learn_from_feedback` depends only on
the feedback's app_name, title, body and actual_category; the predicted
category and timestamp are ignored. -/
theorem claim10_learn_ignores_prediction_and_time (lp : LearnedPatterns)
    (fb1 fb2 : UserFeedback) (h1 : fb1.app_name = fb2.app_name)
    (h2 : fb1.title = fb2.title) (h3 : fb1.body = fb2.body)
    (h4 : fb1.actual_category = fb2.actual_category) :
    learn_from_feedback lp fb1 = learn_from_feedback lp fb2 := by
  unfold learn_from_feedback
  rw [h1, h2, h3, h4]

/-- Witness for C10: two feedback events differing only in predicted
category and timestamp. -/
theorem claim10_witness :
    learn_from_feedback empty_patterns
        ⟨"app".data, "hello world".data, "bye".data, .work, .junk, 0⟩
      = learn_from_feedback empty_patterns
        ⟨"app".data, "hello world".data, "bye".data, .personal, .junk, 99⟩ :=
  claim10_learn_ignores_prediction_and_time empty_patterns _ _ rfl rfl rfl rfl

/-- C2 counterexample: after three Junk feedbacks and three Work feedbacks
for app "zzz" (a store reachable by the store's own operations), Junk's
apps map holds confidence 0.8 > 0.7 for "zzz", yet `classify` of "zzz"
returns Work, because Work is scanned first — so the claim's unconditional
override for every category C fails. -/
theorem claim2_counterexample :
    Reach conflictStore
      ∧ List.lookup ("zzz".data) (getPatterns conflictStore .junk).apps
          = some 0.8
      ∧ ((0.7 : ℚ) < 0.8)
      ∧ (classify conflictStore ("zzz".data) [] []).category ≠ .junk := by
  refine ⟨?_, ?_, ?_, ?_⟩
  · exact Reach.learn _ _ (Reach.learn _ _ (Reach.learn _ _ (Reach.learn _ _
      (Reach.learn _ _ (Reach.learn _ _ Reach.init)))))
  · with_unfolding_all decide
  · with_unfolding_all decide
  · with_unfolding_all decide

/-- C2 (amended): if the learned store holds confidence strictly above 0.7
for the normalized app name in category C's apps map, and no category
strictly earlier in the fixed scan order (Work, Personal, Junk) yields a
qualifying learned hit for this input, then `classify` — for any title and
body — returns category C with that stored confidence and with reasoning
containing "Learned from user feedback", regardless of keyword-table
scores. -/
theorem claim2_learned_app_override (lp : LearnedPatterns) (a t b : Str)
    (C : NotificationCategory) (conf : ℚ)
    (happ : List.lookup (strip (lowerS a)) (getPatterns lp C).apps
      = some conf)
    (hconf : 0.7 < conf)
    (hearlier : ∀ C' ∈ earlierCats C,
      checkCat C' (getPatterns lp C') (strip (lowerS a))
        (strip (lowerS (t ++ [' '] ++ b))) = none) :
    (classify lp a t b).category = C
      ∧ isSubstr ("Learned from user feedback".data)
          (classify lp a t b).reasoning = true
      ∧ (classify lp a t b).confidence = conf := by
  have hcatC : checkCat C (getPatterns lp C) (strip (lowerS a))
      (strip (lowerS (t ++ [' '] ++ b)))
      = some
        { category := C
          confidence := conf
          reasoning := "Learned from user feedback: ".data
            ++ strip (lowerS a) ++ " → ".data ++ catValue C
          matched_keywords := [strip (lowerS a)] } := by
    unfold checkCat
    rw [happ]
    dsimp only
    rw [if_pos hconf]
  have hpre : List.isPrefixOf ("Learned from user feedback".data)
      ("Learned from user feedback: ".data ++ strip (lowerS a)
        ++ " → ".data ++ catValue C) = true := by
    rw [List.append_assoc, List.append_assoc]
    rfl
  cases C with
  | work =>
    have e : classify lp a t b
        = { category := .work
            confidence := conf
            reasoning := "Learned from user feedback: ".data
              ++ strip (lowerS a) ++ " → ".data ++ catValue .work
            matched_keywords := [strip (lowerS a)] } := by
      unfold classify classifyNormalized check_learned_patterns
      rw [show getPatterns lp .work = lp.work from rfl] at hcatC
      rw [hcatC]
    rw [e]
    exact ⟨rfl, isSubstr_of_isPrefixOf hpre, rfl⟩
  | personal =>
    have h0 := hearlier .work (by simp [earlierCats])
    have e : classify lp a t b
        = { category := .personal
            confidence := conf
            reasoning := "Learned from user feedback: ".data
              ++ strip (lowerS a) ++ " → ".data ++ catValue .personal
            matched_keywords := [strip (lowerS a)] } := by
      unfold classify classifyNormalized check_learned_patterns
      rw [show getPatterns lp .work = lp.work from rfl] at h0
      rw [show getPatterns lp .personal = lp.personal from rfl] at hcatC
      rw [h0, hcatC]
    rw [e]
    exact ⟨rfl, isSubstr_of_isPrefixOf hpre, rfl⟩
  | junk =>
    have h0 := hearlier .work (by simp [earlierCats])
    have h1 := hearlier .personal (by simp [earlierCats])
    have e : classify lp a t b
        = { category := .junk
            confidence := conf
            reasoning := "Learned from user feedback: ".data
              ++ strip (lowerS a) ++ " → ".data ++ catValue .junk
            matched_keywords := [strip (lowerS a)] } := by
      unfold classify classifyNormalized check_learned_patterns
      rw [show getPatterns lp .work = lp.work from rfl] at h0
      rw [show getPatterns lp .personal = lp.personal from rfl] at h1
      rw [show getPatterns lp .junk = lp.junk from rfl] at hcatC
      rw [h0, h1, hcatC]
    rw [e]
    exact ⟨rfl, isSubstr_of_isPrefixOf hpre, rfl⟩

/-- Witness for C2 (amended): after three Work feedbacks for "zzz", the
classify call returns Work with the learned reasoning. -/
theorem claim2_witness :
    (classify workZzzStore ("zzz".data) "any title".data ("any body".data)).category
        = .work
      ∧ isSubstr ("Learned from user feedback".data)
          (classify workZzzStore ("zzz".data) "any title".data
            "any body".data).reasoning = true
      ∧ (classify workZzzStore ("zzz".data) "any title".data
          "any body".data).confidence = 0.8 :=
  claim2_learned_app_override workZzzStore ("zzz".data) "any title".data
    "any body".data .work 0.8 (by with_unfolding_all decide)
    (by with_unfolding_all decide)
    (fun C' hC' => by simp [earlierCats] at hC')

/-- C3 counterexample: for `classify("", "company.com", "")` on the empty
store, the winning match list is non-empty but contains only a `domain:`
entry, and the reasoning is "Classified as Work: " — not the claimed
"Classified as Work based on general patterns". -/
theorem claim3_counterexample :
    (classify empty_patterns [] "company.com".data []).matched_keywords
        = ["domain:company.com".data]
      ∧ (classify empty_patterns [] "company.com".data []).reasoning
          = "Classified as Work: ".data
      ∧ (classify empty_patterns [] "company.com".data []).reasoning
          ≠ "Classified as Work based on general patterns".data := by
  refine ⟨?_, ?_, ?_⟩
  · with_unfolding_all decide
  · with_unfolding_all decide
  · with_unfolding_all decide

/-- C3 (amended): on the keyword-scoring path, if the winning category's
match list is non-empty but contains no entry of the kinds `app:`,
`keyword:` or `pattern:`, the returned reasoning is exactly
`"Classified as <Category>: "` (the "based on general patterns" fallback
fires only when the match list is empty). -/
theorem claim3_unrecognized_kinds_reasoning (lp : LearnedPatterns)
    (a t b : Str)
    (hc : check_learned_patterns lp (strip (lowerS a))
      (strip (lowerS (t ++ [' '] ++ b))) = none)
    (hne : (classify lp a t b).matched_keywords ≠ [])
    (hkinds : ∀ m ∈ (classify lp a t b).matched_keywords,
      List.isPrefixOf ("app:".data) m = false
        ∧ List.isPrefixOf ("keyword:".data) m = false
        ∧ List.isPrefixOf ("pattern:".data) m = false) :
    (classify lp a t b).reasoning
      = "Classified as ".data ++ catValue (classify lp a t b).category
        ++ ": ".data := by
  obtain ⟨x, y, z, hs, hx, hy⟩ := sortScoresDesc_three
    (.work,
      (calculate_category_score work_keywords (strip (lowerS a))
        (strip (lowerS (t ++ [' '] ++ b)))).1,
      (calculate_category_score work_keywords (strip (lowerS a))
        (strip (lowerS (t ++ [' '] ++ b)))).2)
    (.personal,
      (calculate_category_score personal_keywords (strip (lowerS a))
        (strip (lowerS (t ++ [' '] ++ b)))).1,
      (calculate_category_score personal_keywords (strip (lowerS a))
        (strip (lowerS (t ++ [' '] ++ b)))).2)
    (.junk,
      (calculate_category_score junk_keywords (strip (lowerS a))
        (strip (lowerS (t ++ [' '] ++ b)))).1,
      (calculate_category_score junk_keywords (strip (lowerS a))
        (strip (lowerS (t ++ [' '] ++ b)))).2)
  have e : classify lp a t b = classifyNormalized lp (strip (lowerS a))
      (strip (lowerS (t ++ [' '] ++ b))) := rfl
  rw [e, classifyNormalized_none_eq hc hs] at hne hkinds ⊢
  by_cases hz : x.2.1 = 0
  · rw [if_pos hz] at hne
    exact absurd (rfl : defaultResult.matched_keywords = ([] : List Str)) hne
  · rw [if_neg hz] at hne hkinds ⊢
    exact generate_reasoning_unrecognized x.1 x.2.2 (strip (lowerS a))
      hne hkinds

/-- C4: on the keyword-scoring path with strictly positive best score, the
returned confidence is
`min(0.95, max(0.5, (best − second) / max(best, 1)))`, where best and
second are the two largest of the three category scores; in particular a
positive tie gives confidence exactly 0.5. -/
theorem claim4_confidence_formula (lp : LearnedPatterns) (a t b : Str)
    (ws ps js B S : ℚ)
    (hws : ws = (calculate_category_score work_keywords (strip (lowerS a))
      (strip (lowerS (t ++ [' '] ++ b)))).1)
    (hps : ps = (calculate_category_score personal_keywords (strip (lowerS a))
      (strip (lowerS (t ++ [' '] ++ b)))).1)
    (hjs : js = (calculate_category_score junk_keywords (strip (lowerS a))
      (strip (lowerS (t ++ [' '] ++ b)))).1)
    (hB : B = max ws (max ps js))
    (hS : S = max (min ws ps) (min (max ws ps) js))
    (hc : check_learned_patterns lp (strip (lowerS a))
      (strip (lowerS (t ++ [' '] ++ b))) = none)
    (hpos : 0 < B) :
    (classify lp a t b).confidence
        = min 0.95 (max 0.5 ((B - S) / max B 1))
      ∧ (S = B → (classify lp a t b).confidence = 0.5) := by
  obtain ⟨x, y, z, hs, hx, hy⟩ := sortScoresDesc_three
    (.work,
      (calculate_category_score work_keywords (strip (lowerS a))
        (strip (lowerS (t ++ [' '] ++ b)))).1,
      (calculate_category_score work_keywords (strip (lowerS a))
        (strip (lowerS (t ++ [' '] ++ b)))).2)
    (.personal,
      (calculate_category_score personal_keywords (strip (lowerS a))
        (strip (lowerS (t ++ [' '] ++ b)))).1,
      (calculate_category_score personal_keywords (strip (lowerS a))
        (strip (lowerS (t ++ [' '] ++ b)))).2)
    (.junk,
      (calculate_category_score junk_keywords (strip (lowerS a))
        (strip (lowerS (t ++ [' '] ++ b)))).1,
      (calculate_category_score junk_keywords (strip (lowerS a))
        (strip (lowerS (t ++ [' '] ++ b)))).2)
  dsimp only at hx hy
  have e : classify lp a t b = classifyNormalized lp (strip (lowerS a))
      (strip (lowerS (t ++ [' '] ++ b))) := rfl
  have hxB : x.2.1 = B := by
    rw [hx, hB, hws, hps, hjs]
  have hyS : y.2.1 = S := by
    rw [hy, hS, hws, hps, hjs]
  rw [e, classifyNormalized_none_eq hc hs, if_neg
    (by rw [hxB]; exact ne_of_gt hpos)]
  dsimp only
  constructor
  · rw [hxB, hyS]
  · intro hSB
    rw [hxB, hyS, hSB, sub_self, zero_div]
    norm_num

/-- Witness for C4 at `classify("slack", "meeting", "")`: scores are
(4, 0, 0), so the confidence is min(0.95, max(0.5, 4/4)) = 0.95. -/
theorem claim4_witness :
    ((classify empty_patterns ("slack".data) "meeting".data []).confidence
        = min 0.95 (max 0.5 ((4 - 0) / max 4 1))
      ∧ ((0 : ℚ) = 4 →
          (classify empty_patterns ("slack".data) "meeting".data []).confidence
            = 0.5)) :=
  claim4_confidence_formula empty_patterns ("slack".data) "meeting".data []
    4 0 0 4 0
    (by with_unfolding_all decide)
    (by with_unfolding_all decide)
    (by with_unfolding_all decide)
    (by with_unfolding_all decide)
    (by with_unfolding_all decide)
    (by with_unfolding_all decide)
    (by norm_num)

/-- Witness for C3 (amended) at `classify("", "company.com", "")`: the only
match is `domain:company.com`, and the reasoning is
"Classified as Work: ". -/
theorem claim3_witness :
    (classify empty_patterns [] "company.com".data []).reasoning
      = "Classified as ".data
        ++ catValue (classify empty_patterns [] "company.com".data []).category
        ++ ": ".data :=
  claim3_unrecognized_kinds_reasoning empty_patterns [] "company.com".data []
    (by with_unfolding_all decide)
    (by with_unfolding_all decide)
    (by with_unfolding_all decide)

/-- C5: for every feedback event, `learn_from_feedback` updates only the
actual category's patterns; the normalized app name (when non-empty) is
set to `min(0.95, previous-or-0.5 + 0.1)`; the written content tokens are
exactly `writtenTokens` (the word-character runs of length ≥ 3 of the
normalized title+body, at most the first five, those longer than 3), each
set to `min(0.9, previous-or-0.5 + 0.05)` (stated for tokens occurring
once among the taken tokens; a repeated token is bumped once per
occurrence); no other tokens are written. -/
theorem claim5_learn_update (lp : LearnedPatterns) (fb : UserFeedback) :
    (∀ C, C ≠ fb.actual_category →
        getPatterns (learn_from_feedback lp fb) C = getPatterns lp C)
      ∧ (∀ k : Str,
          List.lookup k
              (getPatterns (learn_from_feedback lp fb) fb.actual_category).apps
            = if strip (lowerS fb.app_name) ≠ [] ∧ k = strip (lowerS fb.app_name)
              then some (min 0.95
                (dictGetD (getPatterns lp fb.actual_category).apps k 0.5 + 0.1))
              else List.lookup k (getPatterns lp fb.actual_category).apps)
      ∧ (∀ k : Str, k ∉ writtenTokens fb →
          List.lookup k
              (getPatterns (learn_from_feedback lp fb) fb.actual_category).content
            = List.lookup k (getPatterns lp fb.actual_category).content)
      ∧ (∀ k : Str, (writtenTokens fb).count k = 1 →
          List.lookup k
              (getPatterns (learn_from_feedback lp fb) fb.actual_category).content
            = some (min 0.9
              (dictGetD (getPatterns lp fb.actual_category).content k 0.5
                + 0.05))) := by
  refine ⟨?_, ?_, ?_, ?_⟩
  · intro C hC
    rw [learn_eq, getPatterns_setPatterns_ne _ _ hC]
  · intro k
    rw [learn_eq, getPatterns_setPatterns_self]
    by_cases ha : (strip (lowerS fb.app_name)).isEmpty
    · rw [if_pos ha]
      have ha' : strip (lowerS fb.app_name) = [] := by simpa using ha
      rw [if_neg (by simp [ha'])]
    · rw [if_neg ha]
      have ha' : strip (lowerS fb.app_name) ≠ [] := by simpa using ha
      rw [lookup_dictSet]
      by_cases hk : k = strip (lowerS fb.app_name)
      · rw [if_pos hk, if_pos ⟨ha', hk⟩, hk]
      · rw [if_neg hk, if_neg (fun hand => hk hand.2)]
  · intro k hk
    rw [learn_eq, getPatterns_setPatterns_self]
    dsimp only
    rw [foldl_guard_eq_filter]
    exact lookup_foldl_bump_not_mem _ _ hk
  · intro k hk
    rw [learn_eq, getPatterns_setPatterns_self]
    dsimp only
    rw [foldl_guard_eq_filter]
    exact lookup_foldl_bump_count_one _ _ hk

/-- Witness for C5 with feedback ("app", "hello world", "bye") → Junk:
Work is untouched, "bye" (length 3) is not written, "hello" is bumped to
0.55. -/
theorem claim5_witness :
    getPatterns (learn_from_feedback empty_patterns fbHello) .work
        = getPatterns empty_patterns .work
      ∧ List.lookup ("bye".data)
          (getPatterns (learn_from_feedback empty_patterns fbHello)
            .junk).content
        = List.lookup ("bye".data) (getPatterns empty_patterns .junk).content
      ∧ List.lookup ("hello".data)
          (getPatterns (learn_from_feedback empty_patterns fbHello)
            .junk).content
        = some (min 0.9 (dictGetD (getPatterns empty_patterns .junk).content
            "hello".data 0.5 + 0.05)) :=
  ⟨(claim5_learn_update empty_patterns fbHello).1 .work (by decide),
   (claim5_learn_update empty_patterns fbHello).2.2.1 ("bye".data)
     (by with_unfolding_all decide),
   (claim5_learn_update empty_patterns fbHello).2.2.2 ("hello".data)
     (by with_unfolding_all decide)⟩

/-- C8: `classify` on the inputs with every letter uppercased returns the
same category and the same confidence as on the all-lowercase inputs. -/
theorem claim8_case_insensitive (lp : LearnedPatterns) (a t b : Str) :
    (classify lp (upperS a) (upperS t) (upperS b)).category
        = (classify lp (lowerS a) (lowerS t) (lowerS b)).category
      ∧ (classify lp (upperS a) (upperS t) (upperS b)).confidence
        = (classify lp (lowerS a) (lowerS t) (lowerS b)).confidence := by
  have hsp : lowerS [' '] = [' '] := by decide
  have h2 : lowerS (upperS t ++ [' '] ++ upperS b)
      = lowerS (lowerS t ++ [' '] ++ lowerS b) := by
    rw [lowerS_append, lowerS_append, lowerS_append, lowerS_append,
      lowerS_upperS t, lowerS_upperS b]
  have e : classify lp (upperS a) (upperS t) (upperS b)
      = classify lp (lowerS a) (lowerS t) (lowerS b) := by
    unfold classify
    rw [lowerS_upperS a, h2]
  rw [e]
  exact ⟨rfl, rfl⟩

end NotiSync
